import Mathlib

/-!
Shallow embedding of the data-type generalizer (src/main.py) and proofs
about its behaviour.

The program reads a CSV into a pandas DataFrame, parses a `--type_map`
string into a dict of type-label conversions, applies per-column casts,
and writes the result.  We model:

* Python strings as `List Char`, with `pySplit`, `pyStrip`, `pyLower`
  mirroring `str.split` (single-character separator), `str.strip`,
  `str.lower` (for the ASCII tokens this program compares).
* Cell values as an inductive `Value` (pandas int64 / float64 / bool /
  object cells).  Floating-point cells are modelled as rationals: none
  of the properties below depend on rounding, only on exact arithmetic,
  parsing success/failure and truncation.
* The type-map dict as the list of inserted (key, value) pairs in
  insertion order, looked up with last-write-wins semantics (`lookupLW`),
  which is observationally what the Python dict provides here.
* `main`'s observable behaviour as an event trace (input read, output
  written) plus an exit code.
-/

set_option autoImplicit false

deriving instance DecidableEq for Except

namespace DTG

/-- The character list of a string literal (Python `str` as `List Char`). -/
def chars (s : String) : List Char := s.data

/-- Python `s.split(sep)` for a one-character separator: splits on every
occurrence, keeps empty pieces, and returns `[""]` on the empty string. -/
def pySplit (sep : Char) : List Char → List (List Char)
  | [] => [[]]
  | c :: rest =>
    let r := pySplit sep rest
    if c = sep then [] :: r
    else
      match r with
      | t :: ts => (c :: t) :: ts
      | [] => [[c]]

/-- Python `s.strip()`: drop leading and trailing whitespace. -/
def pyStrip (s : List Char) : List Char :=
  ((s.dropWhile Char.isWhitespace).reverse.dropWhile Char.isWhitespace).reverse

/-- Python `s.lower()` (ASCII, which is all this program compares). -/
def pyLower (s : List Char) : List Char := s.map Char.toLower

/-- The closed vocabulary of type labels the tool understands
(`['int', 'float', 'str', 'bool', 'object']` in main.py lines 46-49). -/
inductive TypeLabel where
  | int
  | float
  | str
  | bool
  | object
deriving DecidableEq, Repr, Fintype

/-- Recognise a (stripped, lower-cased) token as a member of the
vocabulary; `none` means the `not in [...]` check of lines 46-49 fires. -/
def labelOf? (tok : List Char) : Option TypeLabel :=
  if tok = chars "int" then some .int
  else if tok = chars "float" then some .float
  else if tok = chars "str" then some .str
  else if tok = chars "bool" then some .bool
  else if tok = chars "object" then some .object
  else none

/-- The two `ValueError`s the type-map parsing loop (lines 41-51) can
raise: the unpacking failure of `old, new = conversion.split(':')` when a
segment does not have exactly two tokens, and the invalid-type error for
an out-of-vocabulary token. -/
inductive ParseError where
  | malformed (seg : List Char)
  | invalidType (tok : List Char)
deriving DecidableEq, Repr

/-- One iteration of the parsing loop (lines 42-51) on one comma
segment: split on `':'`, require exactly two tokens, strip + lower each,
check the old token then the new token against the vocabulary. -/
def parseSegment (seg : List Char) : Except ParseError (TypeLabel × TypeLabel) :=
  match pySplit ':' seg with
  | [a, b] =>
    let o := pyLower (pyStrip a)
    let n := pyLower (pyStrip b)
    match labelOf? o with
    | none => .error (.invalidType o)
    | some ol =>
      match labelOf? n with
      | none => .error (.invalidType n)
      | some nl => .ok (ol, nl)
  | _ => .error (.malformed seg)

/-- The parsing loop over all comma segments, in order, stopping at the
first error; on success it returns the `(old, new)` pairs in segment
order (the dict's insertion sequence). -/
def parseSegs : List (List Char) → Except ParseError (List (TypeLabel × TypeLabel))
  | [] => .ok []
  | seg :: rest =>
    match parseSegment seg with
    | .error e => .error e
    | .ok p =>
      match parseSegs rest with
      | .error e => .error e
      | .ok l => .ok (p :: l)

/-- Lines 39-55: build the type map from the `--type_map` string. -/
def parseTypeMap (s : List Char) : Except ParseError (List (TypeLabel × TypeLabel)) :=
  parseSegs (pySplit ',' s)

/-- Dict lookup over the insertion sequence: the latest inserted binding
for a key wins, exactly as repeated `type_map[old] = new` assignments
behave. -/
def lookupLW (l : List (TypeLabel × TypeLabel)) (k : TypeLabel) : Option TypeLabel :=
  match l with
  | [] => none
  | p :: rest =>
    match lookupLW rest k with
    | some v => some v
    | none => if k = p.1 then some p.2 else none

/-! ## Cell values, columns, frames -/

/-- A pandas cell value, as this program can encounter them: int64 cells,
float64 cells (modelled as exact rationals), bool cells, and Python
strings held in object columns. -/
inductive Value where
  | vInt (n : Int)
  | vFloat (q : ℚ)
  | vBool (b : Bool)
  | vStr (s : List Char)
deriving DecidableEq, Repr

/-- The storage dtypes relevant to the program: `is_integer_dtype`,
`is_float_dtype`, `is_bool_dtype` (lines 71-76), and `object` (line 61;
string columns are object columns in pandas). -/
inductive Dtype where
  | int64
  | float64
  | boolDt
  | objectDt
deriving DecidableEq, Repr

/-- One DataFrame column: its storage dtype and its cells in row order. -/
structure Column where
  dtype : Dtype
  cells : List Value
deriving DecidableEq, Repr

/-- A DataFrame: named columns in order. -/
abbrev DataFrame := List (List Char × Column)

/-- A cell value consistent with a column's declared dtype (object
columns may hold anything). -/
def cellMatches (v : Value) (d : Dtype) : Bool :=
  match d, v with
  | .int64, .vInt _ => true
  | .float64, .vFloat _ => true
  | .boolDt, .vBool _ => true
  | .objectDt, _ => true
  | _, _ => false

/-- Well-formed column: every cell matches the declared dtype. -/
def WFColumn (c : Column) : Bool := c.cells.all (fun v => cellMatches v c.dtype)

/-- Well-formed frame: every column is well-formed. -/
def WFFrame (df : DataFrame) : Bool := df.all (fun p => WFColumn p.2)

/-! ## Python value rendering and numeric parsing -/

/-- Decimal digits of a natural number, most significant first. -/
def natDigits (n : Nat) : List Char := Nat.toDigits 10 n

/-- Python `str(int)`. -/
def renderInt (n : Int) : List Char :=
  if n < 0 then '-' :: natDigits n.natAbs else natDigits n.natAbs

/-- Digits of the decimal expansion of `num/den` (`num < den`), stopping
when the remainder is exhausted or fuel runs out.  Python floats are
dyadic rationals, so their expansions terminate. -/
def fracDigits : Nat → Nat → Nat → List Char
  | 0, _, _ => []
  | _ + 1, 0, _ => []
  | fuel + 1, num, den =>
    Char.ofNat (48 + num * 10 / den) :: fracDigits fuel (num * 10 % den) den

/-- Python `str(float)` for finite values: sign, integer part, `'.'`,
fractional digits (at least one, `"1.0"` style).  `|q| = n/d` in lowest
terms gives integer part `n / d` and fractional remainder `n % d` over
`d`.  We print the exact expansion rather than the shortest
round-tripping form; no property below depends on the printed digits of
a float. -/
def renderFloat (q : ℚ) : List Char :=
  let sign := if q.num < 0 then ['-'] else ([] : List Char)
  let n : Nat := q.num.natAbs
  let d : Nat := q.den
  let fr := if n % d = 0 then ['0'] else fracDigits 64 (n % d) d
  sign ++ natDigits (n / d) ++ ('.' :: fr)

/-- Python `str(x)` on a cell value. -/
def render : Value → List Char
  | .vInt n => renderInt n
  | .vFloat q => renderFloat q
  | .vBool b => if b then chars "True" else chars "False"
  | .vStr s => s

/-- Numeric value of a run of decimal digits, most significant first. -/
def digitsVal (l : List Char) : Nat := l.foldl (fun a c => a * 10 + (c.toNat - 48)) 0

/-- The exponent part of a float literal (after the `e`/`E`): optional
sign, then a nonempty run of digits. -/
def parseExp (t : List Char) : Option Int :=
  match t with
  | '+' :: ds => if !ds.isEmpty && ds.all Char.isDigit then some (digitsVal ds) else none
  | '-' :: ds => if !ds.isEmpty && ds.all Char.isDigit then some (-(digitsVal ds : Int)) else none
  | ds => if !ds.isEmpty && ds.all Char.isDigit then some (digitsVal ds) else none

/-- The rational value `ip.fp` of an integer digit run and a fractional
digit run (built with `mkRat` so that it evaluates by kernel
reduction). -/
def mantissaVal (ip fp : List Char) : ℚ :=
  mkRat (digitsVal ip * 10 ^ fp.length + digitsVal fp) (10 ^ fp.length)

/-- `m · 10^e` for a decimal exponent (built with `mkRat` so that it
evaluates by kernel reduction). -/
def scalePow10 (m : ℚ) (e : Int) : ℚ :=
  if 0 ≤ e then mkRat (m.num * 10 ^ e.toNat) m.den
  else mkRat m.num (m.den * 10 ^ (-e).toNat)

/-- The mantissa of a float literal: decimal digits with at most one
point and at least one digit overall. -/
def parseMantissa (t : List Char) : Option ℚ :=
  let ip := t.takeWhile Char.isDigit
  match t.dropWhile Char.isDigit with
  | [] => if ip.isEmpty then none else some (digitsVal ip : ℚ)
  | '.' :: fp =>
    if fp.all Char.isDigit && (!ip.isEmpty || !fp.isEmpty) then
      some (mantissaVal ip fp)
    else none
  | _ => none

/-- An unsigned float literal: a mantissa, optionally followed by an
`e`/`E` exponent. -/
def pyFloatUnsigned (t : List Char) : Option ℚ :=
  let mant := t.takeWhile (fun c => c != 'e' && c != 'E')
  match t.dropWhile (fun c => c != 'e' && c != 'E') with
  | [] => parseMantissa mant
  | _ :: etail =>
    match parseMantissa mant, parseExp etail with
    | some m, some e => some (scalePow10 m e)
    | _, _ => none

/-- Python `int(s)` on a string: optional surrounding whitespace, an
optional sign, then a nonempty run of decimal digits (we do not model
underscore separators).  `none` models the `ValueError`. -/
def pyInt? (s : List Char) : Option Int :=
  match pyStrip s with
  | '+' :: ds => if !ds.isEmpty && ds.all Char.isDigit then some (digitsVal ds) else none
  | '-' :: ds => if !ds.isEmpty && ds.all Char.isDigit then some (-(digitsVal ds : Int)) else none
  | ds => if !ds.isEmpty && ds.all Char.isDigit then some (digitsVal ds) else none

/-- Python `float(s)` on a string: optional surrounding whitespace,
optional sign, a mantissa (digits with an optional point, at least one
digit), and an optional decimal exponent.  We do not model the
`inf`/`nan` spellings.  `none` models the `ValueError`. -/
def pyFloat? (s : List Char) : Option ℚ :=
  match pyStrip s with
  | '+' :: r => pyFloatUnsigned r
  | '-' :: r => (pyFloatUnsigned r).map (fun q => -q)
  | r => pyFloatUnsigned r

/-! ## Casting (the `astype` calls of lines 84-93) -/

/-- Truncation toward zero of a rational, as the C-style cast behind
`astype(int)` on a float column performs (`Int.tdiv` is T-division). -/
def ratTrunc (q : ℚ) : Int := q.num.tdiv q.den

/-- One cell under `astype` to the given target label:
`astype(float)` parses strings and widens numerics; `astype(str)`
renders; `astype(int)` truncates numerics and parses strings as integer
literals; `astype(bool)` is Python truthiness.  `none` models the
`ValueError` that line 101 catches. -/
def castCell (v : Value) : TypeLabel → Option Value
  | .float =>
    match v with
    | .vInt n => some (.vFloat (n : ℚ))
    | .vFloat q => some (.vFloat q)
    | .vBool b => some (.vFloat (if b then 1 else 0))
    | .vStr s => (pyFloat? s).map .vFloat
  | .int =>
    match v with
    | .vInt n => some (.vInt n)
    | .vFloat q => some (.vInt (ratTrunc q))
    | .vBool b => some (.vInt (if b then 1 else 0))
    | .vStr s => (pyInt? s).map .vInt
  | .str => some (.vStr (render v))
  | .bool =>
    match v with
    | .vInt n => some (.vBool (n != 0))
    | .vFloat q => some (.vBool (q != 0))
    | .vBool b => some (.vBool b)
    | .vStr s => some (.vBool (!s.isEmpty))
  | .object => some v

/-- The storage dtype an `astype` result has. -/
def dtypeOfTarget : TypeLabel → Dtype
  | .int => .int64
  | .float => .float64
  | .bool => .boolDt
  | .str => .objectDt
  | .object => .objectDt

/-- `df[col].astype(<target>)` at column level, except that target
`object` is the explicit `pass` of lines 92-93 (column left exactly
as-is).  `none` is the `ValueError` path of lines 101-103. -/
def castColumn (c : Column) (t : TypeLabel) : Option Column :=
  match t with
  | .object => some c
  | _ =>
    match c.cells.mapM (fun v => castCell v t) with
    | some cs => some ⟨dtypeOfTarget t, cs⟩
    | none => none

/-! ## Inference and per-column processing (lines 57-103) -/

/-- The object column after `df[col] = df[col].astype(str)` (line 64):
same object dtype, every cell rendered as text. -/
def stringifyColumn (c : Column) : Column :=
  ⟨.objectDt, c.cells.map (fun v => .vStr (render v))⟩

/-- The `try` of lines 63-65: attempt to render every cell of an object
column as text.  Python `str()` is total on the values these columns
hold, so the attempt — and hence the bare `except` of lines 66-67 —
is modelled cell by cell through `Option` and always succeeds. -/
def tryAstypeStr (c : Column) : Option Column :=
  match c.cells.mapM (fun v => some (Value.vStr (render v))) with
  | some cs => some ⟨.objectDt, cs⟩
  | none => none

/-- Lines 57-78 for one column: read the dtype; for object columns run
the `astype(str)` attempt (mutating the column) and classify `str` on
success, `object` on failure; otherwise classify by numeric/bool dtype.
Returns the (possibly mutated) column and the inferred label. -/
def inferStep (c : Column) : Column × TypeLabel :=
  match c.dtype with
  | .objectDt =>
    match tryAstypeStr c with
    | some c' => (c', .str)
    | none => (c, .object)
  | .int64 => (c, .int)
  | .float64 => (c, .float)
  | .boolDt => (c, .bool)

/-- The inferred type label of a column (`col_type_name`). -/
def inferLabel (c : Column) : TypeLabel := (inferStep c).2

/-- The errors `generalize_data_type` can raise: a type-map parsing
error (re-raised at line 55) or the conversion failure of line 103,
which reports the column name and the source and target labels. -/
inductive GenError where
  | parseErr (e : ParseError)
  | convErr (col : List Char) (src tgt : TypeLabel)
deriving DecidableEq, Repr

/-- Lines 57-103 for one named column: infer (possibly mutating), look
the label up in the type map, and cast when a rule applies. -/
def processColumn (name : List Char) (c : Column) (m : List (TypeLabel × TypeLabel)) :
    Except GenError Column :=
  let p := inferStep c
  match lookupLW m p.2 with
  | none => .ok p.1
  | some t =>
    match castColumn p.1 t with
    | some c2 => .ok c2
    | none => .error (.convErr name p.2 t)

/-- The column loop of lines 57-103: strictly in column order, stopping
at the first conversion failure. -/
def processColumns (m : List (TypeLabel × TypeLabel)) :
    DataFrame → Except GenError DataFrame
  | [] => .ok []
  | (n, c) :: rest =>
    match processColumn n c m with
    | .error e => .error e
    | .ok c' =>
      match processColumns m rest with
      | .error e => .error e
      | .ok rest' => .ok ((n, c') :: rest')

/-- `generalize_data_type` (lines 27-106): parse the type map, then
process every column. -/
def generalize_data_type (df : DataFrame) (tms : List Char) : Except GenError DataFrame :=
  match parseTypeMap tms with
  | .error e => .error (.parseErr e)
  | .ok m => processColumns m df

/-! ## The `main` flow (lines 109-146) -/

/-- The externally observable I/O events of a run. -/
inductive Event where
  | readInput
  | wroteOutput
deriving DecidableEq, Repr

/-- `main`, lines 120-146: the existence check exits first; otherwise
the input CSV is read (line 128), then `generalize_data_type` runs
(line 131), and only on its success is the output written (line 134);
any `ValueError` exits with code 1 (lines 140-142).  The run is
summarised as its I/O event trace and exit code; `df` stands for the
loaded table. -/
def runMain (inputExists : Bool) (df : DataFrame) (tms : List Char) : List Event × Nat :=
  if inputExists then
    match generalize_data_type df tms with
    | .error _ => ([.readInput], 1)
    | .ok _ => ([.readInput, .wroteOutput], 0)
  else ([], 1)

/-! ## Spec-side definitions

These follow the specification's wording (§4.1, §4.2) rather than the
code's control flow; the theorems below compare the code against them. -/

/-- §4.1's reading of a segment: split on the colon and normalise every
token by trimming whitespace and lower-casing. -/
def tokensOf (seg : List Char) : List (List Char) :=
  (pySplit ':' seg).map (fun t => pyLower (pyStrip t))

/-- §4.1's per-segment verdict: a malformed-mapping error when the
segment does not split into exactly two tokens, otherwise an
invalid-type error naming the first out-of-vocabulary token, otherwise
no error. -/
def segError (seg : List Char) : Option ParseError :=
  match tokensOf seg with
  | [o, n] =>
    if labelOf? o = none then some (.invalidType o)
    else if labelOf? n = none then some (.invalidType n)
    else none
  | _ => some (.malformed seg)

/-- §4.1's reading of a well-formed segment as an `old → new` entry. -/
def segLabels? (seg : List Char) : Option (TypeLabel × TypeLabel) :=
  match tokensOf seg with
  | [o, n] =>
    match labelOf? o, labelOf? n with
    | some a, some b => some (a, b)
    | _, _ => none
  | _ => none

/-- The type-map parser as the (amended) specification words it: the
earliest offending comma segment determines the error; when every
segment is well-formed the parse succeeds with the `old → new` entries
in segment order. -/
def parseTypeMapSpec (s : List Char) : Except ParseError (List (TypeLabel × TypeLabel)) :=
  let segs := pySplit ',' s
  match segs.findSome? segError with
  | some e => .error e
  | none => .ok (segs.filterMap segLabels?)

/-- The specification's notion of a numeric cell (§4.2: "numeric" /
"numeric-parseable"): every int, float and bool cell, and every string
cell that parses as a number. -/
def isNumericCell (v : Value) : Bool :=
  match v with
  | .vStr s => (pyFloat? s).isSome
  | _ => true

/-- A cell that `astype(int)` accepts: every int, float and bool cell,
and exactly the string cells that are integer literals. -/
def intCastable (v : Value) : Bool :=
  match v with
  | .vStr s => (pyInt? s).isSome
  | _ => true

/-- What `astype(float)` does to an int64 cell. -/
def intToFloatCell (v : Value) : Value :=
  match v with
  | .vInt n => .vFloat (n : ℚ)
  | w => w

/-- The expected effect of one run under the map
`"int:float,float:str"` on a well-formed column, per storage dtype:
int columns are floated (by their own rule, applied once — not chained
through `float:str`), float columns are stringified by their rule, bool
columns are untouched, object columns are stringified by inference. -/
def transformIFFS (c : Column) : Column :=
  match c.dtype with
  | .int64 => ⟨.float64, c.cells.map intToFloatCell⟩
  | .float64 => stringifyColumn c
  | .boolDt => c
  | .objectDt => stringifyColumn c

/-! ## Helper lemmas -/

theorem mapM_some {α β : Type} (f : α → β) (l : List α) :
    l.mapM (fun v => some (f v)) = some (l.map f) := by
  induction l with
  | nil => rfl
  | cons a t ih => rw [List.mapM_cons, ih]; rfl

/-- The `astype(str)` attempt on a column always succeeds and yields the
stringified column. -/
theorem tryAstypeStr_eq (c : Column) : tryAstypeStr c = some (stringifyColumn c) := by
  unfold tryAstypeStr stringifyColumn
  rw [mapM_some]

/-- Inference on an object column: the column is stringified and
classified `str`. -/
theorem inferStep_object (c : Column) (h : c.dtype = .objectDt) :
    inferStep c = (stringifyColumn c, .str) := by
  unfold inferStep
  rw [h, tryAstypeStr_eq]

/-- Inference on a non-object column leaves the column alone and
classifies it by its dtype. -/
theorem inferStep_nonobject (c : Column) (h : c.dtype ≠ .objectDt) :
    (inferStep c).1 = c := by
  unfold inferStep
  cases hd : c.dtype with
  | objectDt => exact absurd hd h
  | int64 => rfl
  | float64 => rfl
  | boolDt => rfl

/-- Unfolding `processColumns` on a cons cell. -/
theorem processColumns_cons (m : List (TypeLabel × TypeLabel)) (n : List Char)
    (c : Column) (rest : DataFrame) :
    processColumns m ((n, c) :: rest) =
      match processColumn n c m with
      | .error e => .error e
      | .ok c' =>
        match processColumns m rest with
        | .error e => .error e
        | .ok rest' => .ok ((n, c') :: rest') := rfl

/-- The column loop succeeds exactly when every column's processing
succeeds, and then the output pairs each input column with its processed
result, names preserved, in order. -/
theorem processColumns_ok_iff (m : List (TypeLabel × TypeLabel)) (df out : DataFrame) :
    processColumns m df = .ok out ↔
      List.Forall₂ (fun p q : List Char × Column =>
        p.1 = q.1 ∧ processColumn p.1 p.2 m = .ok q.2) df out := by
  induction df generalizing out with
  | nil =>
    constructor
    · intro h
      cases h
      exact List.Forall₂.nil
    · intro h
      cases h
      rfl
  | cons p rest ih =>
    obtain ⟨n, c⟩ := p
    rw [processColumns_cons]
    constructor
    · intro h
      cases hc : processColumn n c m with
      | error e => rw [hc] at h; cases h
      | ok c' =>
        rw [hc] at h
        cases hr : processColumns m rest with
        | error e => rw [hr] at h; cases h
        | ok rest' =>
          rw [hr] at h
          cases h
          exact List.Forall₂.cons ⟨rfl, hc⟩ ((ih rest').mp hr)
    · intro h
      cases h with
      | cons hpq hrest =>
        obtain ⟨hn, hc⟩ := hpq
        rw [hc, (ih _).mpr hrest]
        cases hn
        rfl

/-- The loop stops at the first failing column: whatever follows it, the
error reported is that column's error. -/
theorem processColumns_first_error (m : List (TypeLabel × TypeLabel))
    (pre : DataFrame) (n : List Char) (c : Column) (post : DataFrame) (e : GenError)
    (hpre : ∀ p ∈ pre, ∃ c', processColumn p.1 p.2 m = .ok c')
    (hc : processColumn n c m = .error e) :
    processColumns m (pre ++ (n, c) :: post) = .error e := by
  induction pre with
  | nil =>
    rw [List.nil_append, processColumns_cons, hc]
  | cons p rest ih =>
    obtain ⟨n0, c0⟩ := p
    obtain ⟨c0', hc0⟩ := hpre (n0, c0) (List.mem_cons_self _ _)
    rw [List.cons_append, processColumns_cons, hc0,
      ih (fun p hp => hpre p (List.mem_cons_of_mem _ hp))]

/-- A column whose inferred label has no rule is returned as the
inference step leaves it. -/
theorem processColumn_unmapped (name : List Char) (c : Column)
    (m : List (TypeLabel × TypeLabel)) (h : lookupLW m (inferLabel c) = none) :
    processColumn name c m = .ok (inferStep c).1 := by
  have h' : lookupLW m (inferStep c).2 = none := h
  simp only [processColumn, h']

/-! ## C1 -/

/-- C1, counterexample to the claim as stated: with type map
`"int:float"`, the object column `[1]` has inferred label `str`, which is
not a key of the map, yet generalization returns it with its cell
changed from the integer `1` to the text `"1"` — not value-for-value
identical. -/
theorem C1_counterexample :
    parseTypeMap (chars "int:float") = .ok [(.int, .float)] ∧
    lookupLW [(.int, .float)] (inferLabel ⟨.objectDt, [.vInt 1]⟩) = none ∧
    generalize_data_type [(chars "a", ⟨.objectDt, [.vInt 1]⟩)] (chars "int:float") =
      .ok [(chars "a", ⟨.objectDt, [.vStr (chars "1")]⟩)] ∧
    (⟨.objectDt, [.vStr (chars "1")]⟩ : Column) ≠ ⟨.objectDt, [.vInt 1]⟩ := by
  decide

/-- C1 (amended): when generalization succeeds, every column whose
inferred label is not a key of the type map is returned unchanged,
value for value, **unless** its storage dtype is object: object columns
are rewritten by the inference step itself, each cell replaced by its
text rendering, before (and regardless of) the map lookup. -/
theorem C1_unmapped_columns (df out : DataFrame) (m : List (TypeLabel × TypeLabel))
    (tms : List Char) (hp : parseTypeMap tms = .ok m)
    (hg : generalize_data_type df tms = .ok out) :
    List.Forall₂ (fun p q : List Char × Column =>
      p.1 = q.1 ∧
      (lookupLW m (inferLabel p.2) = none →
        (p.2.dtype = .objectDt → q.2 = stringifyColumn p.2) ∧
        (p.2.dtype ≠ .objectDt → q.2 = p.2))) df out := by
  unfold generalize_data_type at hg
  rw [hp] at hg
  refine ((processColumns_ok_iff m df out).mp hg).imp ?_
  rintro p q ⟨hn, hok⟩
  refine ⟨hn, fun hnone => ?_⟩
  rw [processColumn_unmapped p.1 p.2 m hnone] at hok
  injection hok with hq
  constructor
  · intro hobj
    rw [← hq, inferStep_object p.2 hobj]
  · intro hobj
    rw [← hq, inferStep_nonobject p.2 hobj]

/-- C1, witness: a bool column under map `"int:float"` is unmapped and
comes back untouched. -/
theorem C1_witness :
    List.Forall₂ (fun p q : List Char × Column =>
      p.1 = q.1 ∧
      (lookupLW [(.int, .float)] (inferLabel p.2) = none →
        (p.2.dtype = .objectDt → q.2 = stringifyColumn p.2) ∧
        (p.2.dtype ≠ .objectDt → q.2 = p.2)))
      [(chars "b", ⟨.boolDt, [.vBool true]⟩)]
      [(chars "b", ⟨.boolDt, [.vBool true]⟩)] :=
  C1_unmapped_columns [(chars "b", ⟨.boolDt, [.vBool true]⟩)]
    [(chars "b", ⟨.boolDt, [.vBool true]⟩)] [(.int, .float)] (chars "int:float")
    (by decide) (by decide)

/-! ## C2 -/

/-- C2, counterexample to the claim as stated: on the malformed map
`"int-float"` the process does exit non-zero, but the input table has
already been read when the parse fails — the failure is not "before the
input file is read". -/
theorem C2_counterexample :
    parseTypeMap (chars "int-float") = .error (.malformed (chars "int-float")) ∧
    (runMain true [] (chars "int-float")).2 = 1 ∧
    Event.readInput ∈ (runMain true [] (chars "int-float")).1 := by
  decide

/-- C2 (amended): whenever the `--type_map` string fails the
grammar/vocabulary check, the process exits non-zero and no output is
written; the input file, however, is read before the map is parsed, so
only output I/O is guaranteed not to happen. -/
theorem C2_malformed_map_exits (ex : Bool) (df : DataFrame) (tms : List Char)
    (e : ParseError) (hp : parseTypeMap tms = .error e) :
    (runMain ex df tms).2 = 1 ∧ Event.wroteOutput ∉ (runMain ex df tms).1 := by
  cases ex with
  | false =>
    refine ⟨rfl, ?_⟩
    show Event.wroteOutput ∉ ([] : List Event)
    decide
  | true =>
    unfold runMain generalize_data_type
    rw [hp]
    refine ⟨rfl, ?_⟩
    show Event.wroteOutput ∉ ([Event.readInput] : List Event)
    decide

/-- C2, witness. -/
theorem C2_witness :
    (runMain true [] (chars "int-float")).2 = 1 ∧
    Event.wroteOutput ∉ (runMain true [] (chars "int-float")).1 :=
  C2_malformed_map_exits true [] (chars "int-float")
    (.malformed (chars "int-float")) (by decide)

/-! ## C3 -/

/-- C3: for every column of object dtype, the inference step's attempt
to render every cell as text succeeds (yielding the stringified
column), so the column is classified `str` and never `object` — the
fallback branch is unreachable. -/
theorem C3_object_inferred_str (c : Column) (h : c.dtype = .objectDt) :
    tryAstypeStr c = some (stringifyColumn c) ∧
    inferLabel c = .str ∧ inferLabel c ≠ .object := by
  refine ⟨tryAstypeStr_eq c, ?_, ?_⟩
  · unfold inferLabel
    rw [inferStep_object c h]
  · unfold inferLabel
    rw [inferStep_object c h]
    show TypeLabel.str ≠ TypeLabel.object
    decide

/-- C3, witness. -/
theorem C3_witness :
    tryAstypeStr ⟨.objectDt, [.vInt 7]⟩ = some (stringifyColumn ⟨.objectDt, [.vInt 7]⟩) ∧
    inferLabel ⟨.objectDt, [.vInt 7]⟩ = .str ∧
    inferLabel ⟨.objectDt, [.vInt 7]⟩ ≠ .object :=
  C3_object_inferred_str ⟨.objectDt, [.vInt 7]⟩ rfl

/-! ## C6 -/

/-- C6: whenever `generalize_data_type` fails, the run exits non-zero
and no output is written (the failure precedes serialization); and the
column loop halts at the first failing column — whatever columns follow
it, the error returned is that column's error. -/
theorem C6_conversion_failure_halts :
    (∀ (df : DataFrame) (tms : List Char) (e : GenError),
        generalize_data_type df tms = .error e →
        (runMain true df tms).2 = 1 ∧
        Event.wroteOutput ∉ (runMain true df tms).1) ∧
    (∀ (m : List (TypeLabel × TypeLabel)) (tms : List Char) (pre : DataFrame)
        (n : List Char) (c : Column) (post : DataFrame) (e : GenError),
        parseTypeMap tms = .ok m →
        (∀ p ∈ pre, ∃ c', processColumn p.1 p.2 m = .ok c') →
        processColumn n c m = .error e →
        generalize_data_type (pre ++ (n, c) :: post) tms = .error e) := by
  constructor
  · intro df tms e hg
    unfold runMain
    rw [hg]
    refine ⟨rfl, ?_⟩
    show Event.wroteOutput ∉ ([Event.readInput] : List Event)
    decide
  · intro m tms pre n c post e hp hpre hc
    unfold generalize_data_type
    rw [hp]
    exact processColumns_first_error m pre n c post e hpre hc

/-- C6, witness: a lone object column `["x"]` under map `"str:int"`
fails to convert; the run exits 1 without writing output, and the error
is that column's conversion error. -/
theorem C6_witness :
    ((runMain true [(chars "a", ⟨.objectDt, [.vStr (chars "x")]⟩)] (chars "str:int")).2 = 1 ∧
      Event.wroteOutput ∉
        (runMain true [(chars "a", ⟨.objectDt, [.vStr (chars "x")]⟩)] (chars "str:int")).1) ∧
    generalize_data_type ([] ++ (chars "a", ⟨.objectDt, [.vStr (chars "x")]⟩) :: [])
      (chars "str:int") = .error (.convErr (chars "a") .str .int) :=
  ⟨C6_conversion_failure_halts.1 [(chars "a", ⟨.objectDt, [.vStr (chars "x")]⟩)]
      (chars "str:int") (.convErr (chars "a") .str .int) (by decide),
    C6_conversion_failure_halts.2 [(.str, .int)] (chars "str:int") []
      (chars "a") ⟨.objectDt, [.vStr (chars "x")]⟩ [] (.convErr (chars "a") .str .int)
      (by decide) (fun p hp => absurd hp (List.not_mem_nil p)) (by decide)⟩

/-! ## C9 -/

/-- C9: the empty `--type_map` string parses to a malformed-mapping
error (its single empty segment does not split into two tokens), so
generalization fails on every table before touching it, the run exits
non-zero, and no output is written. -/
theorem C9_empty_map (df : DataFrame) :
    parseTypeMap (chars "") = .error (.malformed []) ∧
    generalize_data_type df (chars "") = .error (.parseErr (.malformed [])) ∧
    (runMain true df (chars "")).2 = 1 ∧
    Event.wroteOutput ∉ (runMain true df (chars "")).1 := by
  have hp : parseTypeMap (chars "") = .error (.malformed []) := by decide
  have hg : generalize_data_type df (chars "") = .error (.parseErr (.malformed [])) := by
    unfold generalize_data_type
    rw [hp]
  refine ⟨hp, hg, ?_, ?_⟩
  · unfold runMain
    rw [hg]
    rfl
  · unfold runMain
    rw [hg]
    show Event.wroteOutput ∉ ([Event.readInput] : List Event)
    decide

/-- C9, witness. -/
theorem C9_witness :
    parseTypeMap (chars "") = .error (.malformed []) ∧
    generalize_data_type [(chars "a", ⟨.int64, [.vInt 1]⟩)] (chars "") =
      .error (.parseErr (.malformed [])) ∧
    (runMain true [(chars "a", ⟨.int64, [.vInt 1]⟩)] (chars "")).2 = 1 ∧
    Event.wroteOutput ∉ (runMain true [(chars "a", ⟨.int64, [.vInt 1]⟩)] (chars "")).1 :=
  C9_empty_map [(chars "a", ⟨.int64, [.vInt 1]⟩)]

/-- Each segment either fails (and the spec-side verdict names the same
error) or parses (and the spec-side reading extracts the same pair). -/
theorem segTrichotomy (seg : List Char) :
    (∃ e, parseSegment seg = .error e ∧ segError seg = some e ∧ segLabels? seg = none) ∨
    (∃ p, parseSegment seg = .ok p ∧ segError seg = none ∧ segLabels? seg = some p) := by
  rcases hs : pySplit ':' seg with _ | ⟨a, _ | ⟨b, _ | ⟨c, rest⟩⟩⟩
  · exact .inl ⟨.malformed seg, by simp [parseSegment, hs],
      by simp [segError, tokensOf, hs], by simp [segLabels?, tokensOf, hs]⟩
  · exact .inl ⟨.malformed seg, by simp [parseSegment, hs],
      by simp [segError, tokensOf, hs], by simp [segLabels?, tokensOf, hs]⟩
  · cases ho : labelOf? (pyLower (pyStrip a)) with
    | none =>
      exact .inl ⟨.invalidType (pyLower (pyStrip a)), by simp [parseSegment, hs, ho],
        by simp [segError, tokensOf, hs, ho], by simp [segLabels?, tokensOf, hs, ho]⟩
    | some ol =>
      cases hn : labelOf? (pyLower (pyStrip b)) with
      | none =>
        exact .inl ⟨.invalidType (pyLower (pyStrip b)), by simp [parseSegment, hs, ho, hn],
          by simp [segError, tokensOf, hs, ho, hn],
          by simp [segLabels?, tokensOf, hs, ho, hn]⟩
      | some nl =>
        exact .inr ⟨(ol, nl), by simp [parseSegment, hs, ho, hn],
          by simp [segError, tokensOf, hs, ho, hn],
          by simp [segLabels?, tokensOf, hs, ho, hn]⟩
  · exact .inl ⟨.malformed seg, by simp [parseSegment, hs],
      by simp [segError, tokensOf, hs], by simp [segLabels?, tokensOf, hs]⟩

/-- The segment loop agrees with the spec-side description: first
offending segment's verdict, else the well-formed entries in order. -/
theorem parseSegs_spec (segs : List (List Char)) :
    parseSegs segs =
      match segs.findSome? segError with
      | some e => .error e
      | none => .ok (segs.filterMap segLabels?) := by
  induction segs with
  | nil => rfl
  | cons seg rest ih =>
    rcases segTrichotomy seg with ⟨e, hp, he, hl⟩ | ⟨p, hp, he, hl⟩
    · simp only [parseSegs]
      rw [hp, List.findSome?_cons, he]
    · simp only [parseSegs]
      rw [hp, ih, List.findSome?_cons, he, List.filterMap_cons, hl]
      cases hrest : rest.findSome? segError <;> rfl

/-! ## C4 -/

/-- C4, counterexample to the claim as stated: in `"xyz:int,foo"` the
segment `"foo"` does not split into two tokens, so the claim requires a
malformed-mapping failure, but the parser reports the invalid-type
error for the earlier token `"xyz"` instead. -/
theorem C4_counterexample :
    (pySplit ':' (chars "foo")).length ≠ 2 ∧
    parseTypeMap (chars "xyz:int,foo") = .error (.invalidType (chars "xyz")) ∧
    ∀ seg, parseTypeMap (chars "xyz:int,foo") ≠ .error (.malformed seg) := by
  refine ⟨by decide, by decide, ?_⟩
  intro seg h
  rw [(by decide :
    parseTypeMap (chars "xyz:int,foo") = .error (.invalidType (chars "xyz")))] at h
  injection h with h2
  exact ParseError.noConfusion h2

/-- C4 (amended): the parser behaves exactly as the refined
specification `parseTypeMapSpec` describes — the earliest offending
segment determines the failure (malformed-mapping when it does not
split on the colon into exactly two tokens, invalid-type naming its
first out-of-vocabulary token otherwise), and when every segment is
well-formed with both tokens in the vocabulary the parse succeeds with
the `old → new` entries in segment order. -/
theorem C4_parser_matches_spec (s : List Char) : parseTypeMap s = parseTypeMapSpec s := by
  show parseSegs (pySplit ',' s) = _
  rw [parseSegs_spec (pySplit ',' s)]
  rfl

/-- C4, witness. -/
theorem C4_witness :
    parseTypeMap (chars "int:float,bool") = parseTypeMapSpec (chars "int:float,bool") :=
  C4_parser_matches_spec (chars "int:float,bool")

/-- The dict lookup misses exactly when no entry has the key. -/
theorem lookupLW_eq_none_iff (l : List (TypeLabel × TypeLabel)) (k : TypeLabel) :
    lookupLW l k = none ↔ ∀ p ∈ l, p.1 ≠ k := by
  induction l with
  | nil => simp [lookupLW]
  | cons p rest ih =>
    simp only [lookupLW]
    cases hr : lookupLW rest k with
    | some v =>
      constructor
      · intro h
        exact Option.noConfusion h
      · intro hall
        have hnone : lookupLW rest k = none :=
          ih.mpr (fun q hq => hall q (List.mem_cons_of_mem _ hq))
        rw [hr] at hnone
        exact Option.noConfusion hnone
    | none =>
      by_cases hk : k = p.1
      · rw [if_pos hk]
        constructor
        · intro h
          exact Option.noConfusion h
        · intro hall
          exact absurd hk.symm (hall p (List.mem_cons_self _ _))
      · rw [if_neg hk]
        constructor
        · intro _ q hq
          rcases List.mem_cons.mp hq with rfl | hq'
          · exact fun hc => hk hc.symm
          · exact ih.mp hr q hq'
        · intro _
          rfl

/-- With pairwise-distinct keys, an entry's key determines its value. -/
theorem value_unique_of_nodup_keys (l : List (TypeLabel × TypeLabel))
    (hnd : (l.map Prod.fst).Nodup) {k v w : TypeLabel}
    (h1 : (k, v) ∈ l) (h2 : (k, w) ∈ l) : v = w := by
  induction l with
  | nil => cases h1
  | cons p rest ih =>
    have hps := List.nodup_cons.mp hnd
    rcases List.mem_cons.mp h1 with he1 | hm1 <;> rcases List.mem_cons.mp h2 with he2 | hm2
    · rw [← he1] at he2
      exact (congrArg Prod.snd he2.symm : _)
    · exfalso
      apply hps.1
      rw [← he1]
      exact List.mem_map.mpr ⟨(k, w), hm2, rfl⟩
    · exfalso
      apply hps.1
      rw [← he2]
      exact List.mem_map.mpr ⟨(k, v), hm1, rfl⟩
    · exact ih hps.2 hm1 hm2

/-- With pairwise-distinct keys, the dict lookup finds exactly the
entries of the list. -/
theorem lookupLW_eq_some_iff (l : List (TypeLabel × TypeLabel)) :
    (l.map Prod.fst).Nodup → ∀ k v, (lookupLW l k = some v ↔ (k, v) ∈ l) := by
  induction l with
  | nil =>
    intro _ k v
    simp [lookupLW]
  | cons p rest ih =>
    intro hnd k v
    have hps := List.nodup_cons.mp hnd
    simp only [lookupLW]
    cases hr : lookupLW rest k with
    | some w =>
      have hmem : (k, w) ∈ rest := (ih hps.2 k w).mp hr
      constructor
      · intro h
        injection h with h'
        rw [← h']
        exact List.mem_cons_of_mem _ hmem
      · intro h
        rcases List.mem_cons.mp h with heq | hmem2
        · exfalso
          apply hps.1
          rw [← heq]
          exact List.mem_map.mpr ⟨(k, w), hmem, rfl⟩
        · rw [value_unique_of_nodup_keys rest hps.2 hmem hmem2]
    | none =>
      have hknot : ∀ q ∈ rest, q.1 ≠ k := (lookupLW_eq_none_iff rest k).mp hr
      by_cases hk : k = p.1
      · rw [if_pos hk]
        constructor
        · intro h
          injection h with h'
          rw [← h', hk]
          exact List.mem_cons.mpr (.inl (Prod.mk.eta ..))
        · intro h
          rcases List.mem_cons.mp h with heq | hmem2
          · rw [← heq]
          · exact absurd rfl (hknot (k, v) hmem2)
      · rw [if_neg hk]
        constructor
        · intro h
          exact Option.noConfusion h
        · intro h
          rcases List.mem_cons.mp h with heq | hmem2
          · exact absurd (congrArg Prod.fst heq) hk
          · exact absurd rfl (hknot (k, v) hmem2)

/-- The spec-side reading of a segment is exactly the optional success
of the code's segment parse. -/
theorem segLabels?_eq_toOption (seg : List Char) :
    segLabels? seg = (parseSegment seg).toOption := by
  rcases segTrichotomy seg with ⟨e, hp, _, hl⟩ | ⟨p, hp, _, hl⟩ <;> rw [hp, hl] <;> rfl

/-- A successful parse yields exactly the per-segment entries, in
segment order. -/
theorem parseSegs_ok_entries (segs : List (List Char)) (l : List (TypeLabel × TypeLabel))
    (h : parseSegs segs = .ok l) : l = segs.filterMap segLabels? := by
  rw [parseSegs_spec] at h
  cases hf : segs.findSome? segError with
  | some e =>
    rw [hf] at h
    exact Except.noConfusion h
  | none =>
    rw [hf] at h
    injection h with h'
    exact h'.symm

/-- In the dict built from an entry sequence, the last entry bearing a
key wins the lookup for that key. -/
theorem lookupLW_append_last (l1 l2 : List (TypeLabel × TypeLabel)) (k v : TypeLabel)
    (h2 : ∀ p ∈ l2, p.1 ≠ k) : lookupLW (l1 ++ (k, v) :: l2) k = some v := by
  induction l1 with
  | nil =>
    simp only [List.nil_append, lookupLW]
    rw [(lookupLW_eq_none_iff l2 k).mpr h2]
    simp
  | cons p rest ih =>
    simp only [List.cons_append, lookupLW, List.append_eq]
    rw [ih]

/-! ## C7 -/

/-- C7: the mapping a valid type-map string produces is invariant under
permutation of its comma segments whenever the source labels are
pairwise distinct; and when a source label appears in several segments,
the entry of the last (later) occurrence wins the lookup. -/
theorem C7_perm_and_last_wins :
    (∀ (s1 s2 : List Char) (l1 l2 : List (TypeLabel × TypeLabel)),
        parseTypeMap s1 = .ok l1 → parseTypeMap s2 = .ok l2 →
        (pySplit ',' s1).Perm (pySplit ',' s2) →
        (l1.map Prod.fst).Nodup →
        ∀ k, lookupLW l1 k = lookupLW l2 k) ∧
    (∀ (s : List Char) (l l1 l2 : List (TypeLabel × TypeLabel)) (k v : TypeLabel),
        parseTypeMap s = .ok l → l = l1 ++ (k, v) :: l2 →
        (∀ p ∈ l2, p.1 ≠ k) → lookupLW l k = some v) := by
  constructor
  · intro s1 s2 l1 l2 h1 h2 hperm hnd1 k
    have e1 : l1 = (pySplit ',' s1).filterMap segLabels? := parseSegs_ok_entries _ _ h1
    have e2 : l2 = (pySplit ',' s2).filterMap segLabels? := parseSegs_ok_entries _ _ h2
    have hpl : l1.Perm l2 := by
      rw [e1, e2]
      exact hperm.filterMap segLabels?
    have hnd2 : (l2.map Prod.fst).Nodup := ((hpl.map Prod.fst).nodup_iff).mp hnd1
    cases hv : lookupLW l1 k with
    | none =>
      have hall := (lookupLW_eq_none_iff l1 k).mp hv
      exact ((lookupLW_eq_none_iff l2 k).mpr
        (fun q hq => hall q (hpl.mem_iff.mpr hq))).symm
    | some v =>
      have hmem : (k, v) ∈ l1 := (lookupLW_eq_some_iff l1 hnd1 k v).mp hv
      exact ((lookupLW_eq_some_iff l2 hnd2 k v).mpr (hpl.mem_iff.mp hmem)).symm
  · intro s l l1 l2 k v _ heq h2
    rw [heq]
    exact lookupLW_append_last l1 l2 k v h2

/-- C7, witness: `"int:float,bool:str"` against its segment-swapped form
(equal lookups everywhere), and the duplicated `int` key of
`"int:float,int:str"` resolved by the later entry. -/
theorem C7_witness :
    (∀ k, lookupLW [(TypeLabel.int, TypeLabel.float), (TypeLabel.bool, TypeLabel.str)] k =
      lookupLW [(TypeLabel.bool, TypeLabel.str), (TypeLabel.int, TypeLabel.float)] k) ∧
    lookupLW [(TypeLabel.int, TypeLabel.float), (TypeLabel.int, TypeLabel.str)]
      TypeLabel.int = some TypeLabel.str :=
  ⟨C7_perm_and_last_wins.1 (chars "int:float,bool:str") (chars "bool:str,int:float")
      [(.int, .float), (.bool, .str)] [(.bool, .str), (.int, .float)]
      (by decide) (by decide) (by decide) (by decide),
    C7_perm_and_last_wins.2 (chars "int:float,int:str")
      [(.int, .float), (.int, .str)] [(.int, .float)] [] .int .str
      (by decide) rfl (fun p hp => absurd hp (List.not_mem_nil p))⟩

theorem mapM_isSome {α β : Type} (f : α → Option β) (l : List α) :
    ((l.mapM f).isSome = true) ↔ ∀ v ∈ l, (f v).isSome = true := by
  induction l with
  | nil =>
    constructor
    · intro _ v hv
      cases hv
    · intro _
      rfl
  | cons a t ih =>
    rw [List.mapM_cons]
    constructor
    · intro h v hv
      rcases List.mem_cons.mp hv with rfl | hv'
      · cases hf : f v with
        | none =>
          rw [hf] at h
          simp at h
        | some b => simp
      · cases hf : f a with
        | none =>
          rw [hf] at h
          simp at h
        | some b =>
          cases ht : t.mapM f with
          | none =>
            rw [hf, ht] at h
            simp at h
          | some bs => exact ih.mp (by rw [ht]; rfl) v hv'
    · intro hall
      cases hf : f a with
      | none =>
        have := hall a (List.mem_cons_self _ _)
        rw [hf] at this
        simp at this
      | some b =>
        have ht : (t.mapM f).isSome = true :=
          ih.mpr (fun v hv => hall v (List.mem_cons_of_mem _ hv))
        cases htm : t.mapM f with
        | none =>
          rw [htm] at ht
          simp at ht
        | some bs => rfl

/-- Whether a cell survives `astype(int)` is exactly `intCastable`. -/
theorem castCell_int_isSome (v : Value) : (castCell v .int).isSome = intCastable v := by
  cases v with
  | vStr s => simp [castCell, intCastable]
  | vInt n => rfl
  | vFloat q => rfl
  | vBool b => rfl

/-- `astype(int)` on a column succeeds exactly when every individual
cell cast does. -/
theorem castColumn_int_isSome (c : Column) :
    (castColumn c .int).isSome = (c.cells.mapM (fun v => castCell v .int)).isSome := by
  show (match c.cells.mapM (fun v => castCell v .int) with
    | some cs => some (⟨dtypeOfTarget .int, cs⟩ : Column)
    | none => none).isSome = _
  cases hm : c.cells.mapM (fun v => castCell v .int) <;> rfl

/-- Truncation toward zero is floor on nonnegative rationals and
ceiling on negative ones. -/
theorem ratTrunc_eq_floor_ceil (q : ℚ) :
    ratTrunc q = if 0 ≤ q then ⌊q⌋ else ⌈q⌉ := by
  unfold ratTrunc
  by_cases h : 0 ≤ q
  · rw [if_pos h, Rat.floor_def]
    exact Int.tdiv_eq_ediv (Rat.num_nonneg.mpr h) (by positivity)
  · rw [if_neg h]
    have hq : ¬(0 ≤ q.num) := fun hn => h (Rat.num_nonneg.mp hn)
    have h1 : q.num.tdiv q.den = -((-q.num).tdiv q.den) := by
      rw [Int.neg_tdiv, Int.neg_neg]
    have h2 : (-q.num).tdiv q.den = (-q.num) / (q.den : Int) :=
      Int.tdiv_eq_ediv (by omega) (by positivity)
    have h3 : (⌈q⌉ : Int) = -⌊-q⌋ := by
      rw [Int.floor_neg, Int.neg_neg]
    rw [h1, h2, h3, Rat.floor_def, Rat.neg_num, Rat.neg_den]

/-! ## C5 -/

/-- C5, counterexample to the claim as stated: the string cell `"2.5"`
is numeric (it parses as a float), yet casting its column to int fails —
so "fails iff some cell is non-numeric" is wrong: fractional *strings*
are errors, only fractional float cells are truncated. -/
theorem C5_counterexample :
    isNumericCell (.vStr (chars "2.5")) = true ∧
    castColumn ⟨.objectDt, [.vStr (chars "2.5")]⟩ .int = none := by
  decide

/-- C5 (amended): casting a column to int succeeds exactly when every
cell is int-castable — int, float and bool cells always are, while a
string cell must be an integer literal (a numeric but fractional string
such as `"2.5"` fails) — and on float cells the cast silently truncates
toward zero (floor for nonnegative values, ceiling for negative ones)
rather than failing. -/
theorem C5_int_cast_characterization (c : Column) :
    ((castColumn c .int).isSome = true ↔ ∀ v ∈ c.cells, intCastable v = true) ∧
    (∀ q : ℚ, castCell (.vFloat q) .int =
      some (.vInt (if 0 ≤ q then ⌊q⌋ else ⌈q⌉))) := by
  constructor
  · rw [castColumn_int_isSome, mapM_isSome]
    simp only [castCell_int_isSome]
  · intro q
    show some (Value.vInt (ratTrunc q)) = _
    rw [ratTrunc_eq_floor_ceil]

/-- C5, witness. -/
theorem C5_witness :
    ((castColumn ⟨.float64, [.vFloat (mkRat 5 2)]⟩ .int).isSome = true ↔
      ∀ v ∈ [Value.vFloat (mkRat 5 2)], intCastable v = true) ∧
    (∀ q : ℚ, castCell (.vFloat q) .int =
      some (.vInt (if 0 ≤ q then ⌊q⌋ else ⌈q⌉))) :=
  C5_int_cast_characterization ⟨.float64, [.vFloat (mkRat 5 2)]⟩

theorem mapM_eq_map_of_all_some {α β : Type} (f : α → Option β) (g : α → β) (l : List α)
    (h : ∀ v ∈ l, f v = some (g v)) : l.mapM f = some (l.map g) := by
  induction l with
  | nil => rfl
  | cons a t ih =>
    rw [List.mapM_cons, h a (List.mem_cons_self _ _),
      ih (fun v hv => h v (List.mem_cons_of_mem _ hv))]
    rfl

/-- Stringifying an already-stringified column changes nothing: text
renders to itself. -/
theorem stringify_idem (c : Column) :
    stringifyColumn (stringifyColumn c) = stringifyColumn c := by
  have hg : (fun v => Value.vStr (render v)) ∘ (fun v => Value.vStr (render v)) =
      (fun v => Value.vStr (render v)) := funext (fun _ => rfl)
  unfold stringifyColumn
  simp only [List.map_map, hg]

/-- A successful `astype(float)` produces a float64 column built from
the per-cell casts. -/
theorem castColumn_float_shape (c c' : Column) (h : castColumn c .float = some c') :
    ∃ cs, c.cells.mapM (fun v => castCell v .float) = some cs ∧ c' = ⟨.float64, cs⟩ := by
  have h' : (match c.cells.mapM (fun v => castCell v .float) with
      | some cs => some (⟨Dtype.float64, cs⟩ : Column)
      | none => (none : Option Column)) = some c' := h
  cases hm : c.cells.mapM (fun v => castCell v .float) with
  | none =>
    rw [hm] at h'
    exact Option.noConfusion h'
  | some cs =>
    rw [hm] at h'
    injection h' with h2
    exact ⟨cs, rfl, h2.symm⟩

/-- `astype(str)` always succeeds and is exactly stringification. -/
theorem castColumn_str_total (c : Column) :
    castColumn c .str = some (stringifyColumn c) := by
  have h : c.cells.mapM (fun v => castCell v .str) =
      some (c.cells.map (fun v => Value.vStr (render v))) := by
    have he : (fun v => castCell v .str) =
        (fun v => some (Value.vStr (render v))) := funext (fun _ => rfl)
    rw [he, mapM_some]
  show (match c.cells.mapM (fun v => castCell v .str) with
    | some cs => some (⟨Dtype.objectDt, cs⟩ : Column)
    | none => none) = _
  rw [h]
  rfl

/-- An object column under a map with no `str` rule: stringified by
inference, then returned. -/
theorem processColumn_object (n : List Char) (c : Column) (hd : c.dtype = .objectDt)
    (m : List (TypeLabel × TypeLabel)) (h : lookupLW m .str = none) :
    processColumn n c m = .ok (stringifyColumn c) := by
  have h1 := inferStep_object c hd
  simp only [processColumn, h1, h]

/-- Under the map `"int:float"`, reprocessing an already-processed
column is a no-op. -/
theorem processColumn_pass2 (n : List Char) (c c' : Column)
    (h : processColumn n c [(.int, .float)] = .ok c') :
    processColumn n c' [(.int, .float)] = .ok c' := by
  rcases c with ⟨d, cells⟩
  cases d with
  | int64 =>
    have h' : (match castColumn ⟨Dtype.int64, cells⟩ .float with
        | some c2 => (.ok c2 : Except GenError Column)
        | none => .error (.convErr n .int .float)) = .ok c' := h
    cases hcast : castColumn ⟨Dtype.int64, cells⟩ .float with
    | none =>
      rw [hcast] at h'
      exact Except.noConfusion h'
    | some c2 =>
      rw [hcast] at h'
      injection h' with h2
      obtain ⟨cs, _, hshape⟩ := castColumn_float_shape _ _ hcast
      rw [← h2, hshape]
      rfl
  | float64 =>
    have h' : (.ok ⟨Dtype.float64, cells⟩ : Except GenError Column) = .ok c' := h
    injection h' with h2
    rw [← h2]
    rfl
  | boolDt =>
    have h' : (.ok ⟨Dtype.boolDt, cells⟩ : Except GenError Column) = .ok c' := h
    injection h' with h2
    rw [← h2]
    rfl
  | objectDt =>
    rw [processColumn_object n _ rfl [(.int, .float)] rfl] at h
    injection h with h2
    rw [← h2, processColumn_object n _ rfl [(.int, .float)] rfl, stringify_idem]

/-! ## C8 -/

/-- C8: generalizing with `"int:float"` is idempotent — if the first
pass succeeds with some output table, running the same generalization on
that output returns it unchanged (int columns have become float, float
has no rule, and re-stringifying the stringified object columns changes
nothing). -/
theorem C8_idempotent (df out : DataFrame)
    (h : generalize_data_type df (chars "int:float") = .ok out) :
    generalize_data_type out (chars "int:float") = .ok out := by
  have hm : parseTypeMap (chars "int:float") = .ok [(.int, .float)] := by decide
  unfold generalize_data_type at h ⊢
  rw [hm] at h ⊢
  rw [processColumns_ok_iff] at h ⊢
  induction h with
  | nil => exact List.Forall₂.nil
  | cons hpq hrest ih =>
    refine List.Forall₂.cons ⟨rfl, ?_⟩ ih
    have h2 := hpq.2
    rw [hpq.1] at h2
    exact processColumn_pass2 _ _ _ h2

/-- C8, witness: the second pass fixes the output of the first. -/
theorem C8_witness :
    generalize_data_type
      [(chars "a", ⟨.float64, [.vFloat 1]⟩), (chars "o", ⟨.objectDt, [.vStr (chars "2")]⟩)]
      (chars "int:float") =
    .ok [(chars "a", ⟨.float64, [.vFloat 1]⟩),
      (chars "o", ⟨.objectDt, [.vStr (chars "2")]⟩)] :=
  C8_idempotent
    [(chars "a", ⟨.int64, [.vInt 1]⟩), (chars "o", ⟨.objectDt, [.vInt 2]⟩)]
    [(chars "a", ⟨.float64, [.vFloat 1]⟩), (chars "o", ⟨.objectDt, [.vStr (chars "2")]⟩)]
    (by decide)

/-! ## C10 -/

/-- One column under the two-rule map `"int:float,float:str"`: the rule
selected by the label inferred before any cast is applied exactly
once. -/
theorem processColumn_IFFS (n : List Char) (c : Column) (hwf : WFColumn c = true) :
    processColumn n c [(.int, .float), (.float, .str)] = .ok (transformIFFS c) := by
  rcases c with ⟨d, cells⟩
  cases d with
  | int64 =>
    have hcells : ∀ v ∈ cells, castCell v .float = some (intToFloatCell v) := by
      intro v hv
      have hm := List.all_eq_true.mp hwf v hv
      cases v with
      | vInt n' => rfl
      | vFloat q => exact Bool.noConfusion hm
      | vBool b => exact Bool.noConfusion hm
      | vStr s => exact Bool.noConfusion hm
    have hcast : castColumn ⟨Dtype.int64, cells⟩ .float =
        some ⟨.float64, cells.map intToFloatCell⟩ := by
      show (match cells.mapM (fun v => castCell v .float) with
        | some cs => some (⟨Dtype.float64, cs⟩ : Column)
        | none => none) = _
      rw [mapM_eq_map_of_all_some _ intToFloatCell cells hcells]
    have h' : processColumn n ⟨Dtype.int64, cells⟩ [(.int, .float), (.float, .str)] =
        (match castColumn ⟨Dtype.int64, cells⟩ .float with
         | some c2 => (.ok c2 : Except GenError Column)
         | none => .error (.convErr n .int .float)) := rfl
    rw [h', hcast]
    rfl
  | float64 =>
    have h' : processColumn n ⟨Dtype.float64, cells⟩ [(.int, .float), (.float, .str)] =
        (match castColumn ⟨Dtype.float64, cells⟩ .str with
         | some c2 => (.ok c2 : Except GenError Column)
         | none => .error (.convErr n .float .str)) := rfl
    rw [h', castColumn_str_total]
    rfl
  | boolDt => rfl
  | objectDt =>
    rw [processColumn_object n _ rfl [(.int, .float), (.float, .str)] rfl]
    rfl

/-- C10: in a single run with map `"int:float,float:str"` on a
well-formed table, every column is cast at most once according to the
label inferred from its dtype before any cast: int columns end the run
as float64 columns (the `float:str` rule is *not* chained onto them),
float columns end as stringified columns, bool columns are untouched,
and object columns are only stringified by inference. -/
theorem C10_no_transitive_casts (df : DataFrame) (hwf : WFFrame df = true) :
    generalize_data_type df (chars "int:float,float:str") =
      .ok (df.map (fun p => (p.1, transformIFFS p.2))) := by
  have hm : parseTypeMap (chars "int:float,float:str") =
      .ok [(.int, .float), (.float, .str)] := by decide
  unfold generalize_data_type
  rw [hm, processColumns_ok_iff]
  induction df with
  | nil => exact List.Forall₂.nil
  | cons p rest ih =>
    have hpair : WFColumn p.2 = true ∧ rest.all (fun q => WFColumn q.2) = true := by
      have h1 : (p :: rest).all (fun q => WFColumn q.2) = true := hwf
      simp only [List.all_cons, Bool.and_eq_true] at h1
      exact h1
    exact List.Forall₂.cons ⟨rfl, processColumn_IFFS p.1 p.2 hpair.1⟩ (ih hpair.2)

/-- C10, witness: an int column is floated, not chained on to str. -/
theorem C10_witness :
    generalize_data_type
      [(chars "a", ⟨.int64, [.vInt 3]⟩), (chars "b", ⟨.float64, [.vFloat 1]⟩)]
      (chars "int:float,float:str") =
    .ok ([(chars "a", ⟨.int64, [.vInt 3]⟩), (chars "b", ⟨.float64, [.vFloat 1]⟩)].map
      (fun p => (p.1, transformIFFS p.2))) :=
  C10_no_transitive_casts
    [(chars "a", ⟨.int64, [.vInt 3]⟩), (chars "b", ⟨.float64, [.vFloat 1]⟩)]
    (by decide)

end DTG
